import Mathlib

/-!
Verification development for the DXGI desktop-duplication capture library
(`src/lib.rs`).  The driver-facing layer (DXGI/D3D11 COM calls) is the external
collaborator: its responses (adapter/output enumeration, acquisition outcomes,
frame-acquisition HRESULTs, the mapped surface bytes) enter the model as
explicit inputs.  Everything the library itself computes — output discovery,
capture-source selection, the error-classification state machine in
`capture_frame_to_surface`, and the rotation-aware pixel extraction in
`capture_frame_t` — is translated faithfully below and proved against.

Machine integers are modelled as `Nat` (byte values are not truncated to 256,
which is irrelevant to the properties at hand); raw-pointer memory is a total
function `Nat → Nat` from byte addresses to byte values, so that the unchecked
pointer reads and writes of the source become function reads and updates.
-/

/-! ### Basic data: `BGRA8`, `CaptureError`, driver constants -/

/-- `struct BGRA8 { b, g, r, a : u8 }` — one 4-byte pixel (src/lib.rs:27). -/
structure BGRA8 where
  b : Nat
  g : Nat
  r : Nat
  a : Nat
deriving DecidableEq

/-- `enum CaptureError` (src/lib.rs:36). -/
inductive CaptureError where
  | AccessDenied
  | AccessLost
  | RefreshFailure
  | Timeout
  | Fail (msg : String)
deriving DecidableEq

/-- Windows HRESULT `DXGI_ERROR_ACCESS_LOST` (0x887A0026), as its raw bits. -/
def DXGI_ERROR_ACCESS_LOST : Nat := 0x887A0026

/-- Windows HRESULT `E_ACCESSDENIED` (0x80070005), as its raw bits. -/
def E_ACCESSDENIED : Nat := 0x80070005

/-- Windows HRESULT `DXGI_ERROR_WAIT_TIMEOUT` (0x887A0027), as its raw bits. -/
def DXGI_ERROR_WAIT_TIMEOUT : Nat := 0x887A0027

/-- `DXGI_MODE_ROTATION_UNSPECIFIED = 0`. -/
def DXGI_MODE_ROTATION_UNSPECIFIED : Nat := 0

/-- `DXGI_MODE_ROTATION_IDENTITY = 1`. -/
def DXGI_MODE_ROTATION_IDENTITY : Nat := 1

/-- `DXGI_MODE_ROTATION_ROTATE90 = 2`. -/
def DXGI_MODE_ROTATION_ROTATE90 : Nat := 2

/-- `DXGI_MODE_ROTATION_ROTATE180 = 3`. -/
def DXGI_MODE_ROTATION_ROTATE180 : Nat := 3

/-- `DXGI_MODE_ROTATION_ROTATE270 = 4`. -/
def DXGI_MODE_ROTATION_ROTATE270 : Nat := 4

/-! ### Output discovery (`get_adapter_outputs`, src/lib.rs:94-113)

The adapter's driver-side enumeration is the input: a list of outputs in
`EnumOutputs` index order (the list's end models the first enumeration
failure / end-of-list sentinel).  Each output's `DXGI_OUTPUT_DESC` carries the
`AttachedToDesktop` BOOL, a raw integer tested against zero. -/

/-- A driver output together with the `AttachedToDesktop` field of its
descriptor (a Windows BOOL, i.e. an integer compared with 0). -/
structure MockOutput where
  attachedToDesktop : Nat
deriving DecidableEq

/-- `get_adapter_outputs` (src/lib.rs:94): walk the enumeration in index
order; on enumeration failure (`break` at end of list) stop; on an output
whose descriptor has `AttachedToDesktop == 0`, stop without including it;
otherwise push and continue. -/
def get_adapter_outputs : List MockOutput → List MockOutput
  | [] => []
  | o :: rest =>
      if o.attachedToDesktop ≠ 0 then o :: get_adapter_outputs rest else []

/-! ### Capture-source selection (`get_capture_source`, src/lib.rs:126-140) -/

/-- An `IDXGIOutput1` as seen by `output_is_primary`: the `dwFlags` word of
its monitor's `MONITORINFO` (the OS collaborator's answer). -/
structure MockOutput1 where
  monitorFlags : Nat
deriving DecidableEq

/-- `output_is_primary` (src/lib.rs:115): test bit 0 (`MONITORINFOF_PRIMARY`)
of the monitor-info flags. -/
def output_is_primary (o : MockOutput1) : Bool :=
  (o.monitorFlags &&& 1) != 0

/-- `get_capture_source` (src/lib.rs:126): for index 0, `find` the first
primary pair; for index `k > 0`, `filter` to the non-primary pairs and take
`nth(k - 1)`.  `δ` stands for the `IDXGIOutputDuplication` handle paired with
each output. -/
def get_capture_source {δ : Type} (output_dups : List (δ × MockOutput1))
    (cs_index : Nat) : Option (δ × MockOutput1) :=
  if cs_index = 0 then
    output_dups.find? (fun p => output_is_primary p.2)
  else
    (output_dups.filter (fun p => !output_is_primary p.2))[cs_index - 1]?

/-- First pair whose output is primary, written out as the spec (§4.2) words
it: "index == 0 → first element whose `is_primary` is true".  Second
definition for the refinement claim C6; compared against the source's
`get_capture_source`. -/
def firstPrimary {δ : Type} : List (δ × MockOutput1) → Option (δ × MockOutput1)
  | [] => none
  | p :: rest => if output_is_primary p.2 then some p else firstPrimary rest

/-- The `k`-th (1-based) pair whose output is not primary, written out as the
spec (§4.2) words it.  Second definition for the refinement claim C6. -/
def nthNonPrimary {δ : Type} : List (δ × MockOutput1) → Nat → Option (δ × MockOutput1)
  | [], _ => none
  | p :: rest, k =>
      if output_is_primary p.2 then nthNonPrimary rest k
      else if k = 1 then some p else nthNonPrimary rest (k - 1)

/-- `select_target` per the spec's §4.2 wording, as the reference point for
claim C6's refinement of `get_capture_source`. -/
def select_target {δ : Type} (l : List (δ × MockOutput1)) (index : Nat) :
    Option (δ × MockOutput1) :=
  if index = 0 then firstPrimary l else nthNonPrimary l index

/-! ### The per-call state machine (`DXGIManager::capture_frame_to_surface`,
src/lib.rs:322-355)

`σ` is the type of duplication sessions (`DuplicatedOutput`), `Ω` the type of
captured surfaces.  Two driver responses are inputs to one call:

* `acq_result` — what `acquire_output_duplication` would produce if invoked
  during this call: `acquire_output_duplication` (src/lib.rs:284) first sets
  `duplicated_output = None` and on success stores the freshly acquired
  session, so its net effect is `duplicated_output := acq_result` with
  `Ok`/`Err` given by `acq_result.isSome`;
* `frame` — the session's `AcquireNextFrame` outcome (src/lib.rs:187-237): a
  surface, or the raw failing HRESULT bits.

Besides the returned `Result` and the new `duplicated_output`, the record
tracks whether the call requested a frame from the driver and whether it ran
re-acquisition, so that the claims about those effects are statable. -/

/-- Observable outcome of one `capture_frame_to_surface` call. -/
structure CaptureStep (σ Ω : Type) where
  result : Except CaptureError Ω
  duplicated_output : Option σ
  frame_requested : Bool
  acquire_attempted : Bool

/-- `DXGIManager::capture_frame_to_surface` (src/lib.rs:322): if no session is
held, attempt acquisition and fail the current call either way; otherwise
request a frame and classify the HRESULT, re-acquiring on `ACCESS_LOST` and on
the generic branch. -/
def capture_frame_to_surface {σ Ω : Type} (dup : Option σ) (acq_result : Option σ)
    (frame : Except Nat Ω) : CaptureStep σ Ω :=
  match dup with
  | none =>
      match acq_result with
      | some s' => ⟨.error (.Fail "No valid duplicated output"), some s', false, true⟩
      | none => ⟨.error .RefreshFailure, none, false, true⟩
  | some s =>
      match frame with
      | .ok surface => ⟨.ok surface, some s, true, false⟩
      | .error hr =>
          if hr = DXGI_ERROR_ACCESS_LOST then
            match acq_result with
            | some s' => ⟨.error .AccessLost, some s', true, true⟩
            | none => ⟨.error .RefreshFailure, none, true, true⟩
          else if hr = E_ACCESSDENIED then
            ⟨.error .AccessDenied, some s, true, false⟩
          else if hr = DXGI_ERROR_WAIT_TIMEOUT then
            ⟨.error .Timeout, some s, true, false⟩
          else
            match acq_result with
            | some s' => ⟨.error (.Fail "Failure when acquiring frame"), some s', true, true⟩
            | none => ⟨.error .RefreshFailure, none, true, true⟩

/-! ### Frame extraction (`DXGIManager::capture_frame_t`, src/lib.rs:357-491)

`capture_frame_t::<T>` is generic; `T` is `BGRA8` (size 4) for
`capture_frame` and `u8` (size 1) for `capture_frame_components`, and enters
only through `mem::size_of::<T>()`, modelled as the parameter `s`.  The local
closure `byte_size = |x| x * size_of::<BGRA8>() / size_of::<T>()` converts a
pixel count into a `T`-element count.  The mapped surface is raw memory: a
total function from byte address to byte value. -/

/-- `byte_size(x) = x * mem::size_of::<BGRA8>() / mem::size_of::<T>()`
(src/lib.rs:370): pixel count to `T`-element count, for `s = size_of::<T>()`. -/
def byte_size (s x : Nat) : Nat := x * 4 / s

/-- Bytes per mapped row as the code addresses it: `byte_stride` `T`-units of
`s` bytes each, where `byte_stride = byte_size(stride)` (src/lib.rs:373). -/
def rowBytes (s stride : Nat) : Nat := s * byte_size s stride

/-- Byte length of the rotation-branch output vector: `len = buf.capacity()`
`T`-units where the vector was reserved with `byte_size(w0 * h0)` elements
(src/lib.rs:383,425,444,467), times `s` bytes per unit. -/
def outLenBytes (s n : Nat) : Nat := s * byte_size s n

/-- The `mem::swap(&mut output_width, &mut output_height)` for `ROTATE90` and
`ROTATE270` (src/lib.rs:385-390), applied to the desktop-rectangle dimensions. -/
def swapDims (rot : Nat) (wh : Nat × Nat) : Nat × Nat :=
  if rot = DXGI_MODE_ROTATION_ROTATE90 ∨ rot = DXGI_MODE_ROTATION_ROTATE270 then
    (wh.2, wh.1)
  else wh

/-- A single raw-pointer byte store: the destination memory updated at one
address. -/
def updFn (f : Nat → Nat) (a v : Nat) : Nat → Nat :=
  fun x => if x = a then v else f x

/-- A sequence of raw stores executed in list order (later stores win),
starting from the destination buffer's initial contents `f0`. -/
def writeFold {β : Type} (ps : List β) (key val : β → Nat) (f0 : Nat → Nat) :
    Nat → Nat :=
  ps.foldl (fun g p => updFn g (key p) (val p)) f0

/-- The iteration space of one rotation branch, in execution order: outer loop
over the `m` chunks (`chunks(byte_stride)` yields exactly `output_height`
chunks since the slice length is `byte_stride * output_height`), inner loop
over `n` elements per chunk, and the 4 bytes of each `BGRA8` store
(`dst.write(*src)` moves one 4-byte pixel). -/
def loopTriples (m n : Nat) : List ((Nat × Nat) × Nat) :=
  (List.range m).flatMap fun i =>
    (List.range n).flatMap fun k =>
      (List.range 4).map fun j => ((i, k), j)

/-- Destination byte address in the `ROTATE90`/`ROTATE270` branches: the
write pointer starts at `buf + column` pixels and advances `output_width`
pixels per store (src/lib.rs:428-436,471-480); `p = ((column, k), j)`. -/
def dst90 (ow : Nat) (p : (Nat × Nat) × Nat) : Nat :=
  4 * (p.1.1 + p.1.2 * ow) + p.2

/-- Source byte address in the `ROTATE90` branch: chunks are enumerated in
reverse (`.rev().enumerate()`), so iteration `column` reads chunk
`oh - 1 - column`, scanning it forward (src/lib.rs:427-436). -/
def src90 (oh rb : Nat) (p : (Nat × Nat) × Nat) : Nat :=
  (oh - 1 - p.1.1) * rb + 4 * p.1.2 + p.2

/-- Destination byte address in the `ROTATE180` branch: the write pointer
starts at `buf + scan_line * output_width` pixels and advances one pixel per
store (src/lib.rs:448-458); `p = ((scan_line, col), j)`. -/
def dst180 (ow : Nat) (p : (Nat × Nat) × Nat) : Nat :=
  4 * (p.1.1 * ow + p.1.2) + p.2

/-- Source byte address in the `ROTATE180` branch: chunks enumerated in
reverse, each chunk scanned backwards from element `output_width - 1`
(src/lib.rs:448-458). -/
def src180 (ow oh rb : Nat) (p : (Nat × Nat) × Nat) : Nat :=
  (oh - 1 - p.1.1) * rb + 4 * (ow - 1 - p.1.2) + p.2

/-- Source byte address in the `ROTATE270` branch: chunks enumerated forward
(no `.rev()`), each chunk scanned backwards from element `output_height - 1`
(src/lib.rs:470-480). -/
def src270 (oh rb : Nat) (p : (Nat × Nat) × Nat) : Nat :=
  p.1.1 * rb + 4 * (oh - 1 - p.1.2) + p.2

/-- The `match output_desc.Rotation` extraction step of `capture_frame_t`
(src/lib.rs:385-487), producing the output vector's bytes.

* `IDENTITY`/`UNSPECIFIED`: `pixel_buf.extend_from_slice(mapped_pixels)` — the
  whole mapped slice of `byte_stride * output_height` `T`-units is copied,
  pitch padding included.
* `ROTATE90`/`ROTATE180`/`ROTATE270`: a vector of `byte_size(w0 * h0)`
  `T`-units (`len = buf.capacity()`) is filled by the raw-pointer loops; the
  model takes `capacity() =` the requested capacity, starts from
  all-zero contents (a raw allocation's bytes are arbitrary; stores out of
  the read-back range are dropped, where the source would be out of bounds),
  and performs the same stores in the same order.
* any other tag: `unimplemented!()` — no value is produced (`none`). -/
def extract_rotation (rot s w0 h0 stride : Nat) (mem : Nat → Nat) :
    Option (List Nat) :=
  let ow := (swapDims rot (w0, h0)).1
  let oh := (swapDims rot (w0, h0)).2
  let rb := rowBytes s stride
  if rot = DXGI_MODE_ROTATION_UNSPECIFIED ∨ rot = DXGI_MODE_ROTATION_IDENTITY then
    some ((List.range (rb * oh)).map mem)
  else if rot = DXGI_MODE_ROTATION_ROTATE90 then
    some ((List.range (outLenBytes s (w0 * h0))).map
      (writeFold (loopTriples oh oh) (dst90 ow) (fun p => mem (src90 oh rb p))
        fun _ => 0))
  else if rot = DXGI_MODE_ROTATION_ROTATE180 then
    some ((List.range (outLenBytes s (w0 * h0))).map
      (writeFold (loopTriples oh ow) (dst180 ow) (fun p => mem (src180 ow oh rb p))
        fun _ => 0))
  else if rot = DXGI_MODE_ROTATION_ROTATE270 then
    some ((List.range (outLenBytes s (w0 * h0))).map
      (writeFold (loopTriples oh oh) (dst90 ow) (fun p => mem (src270 oh rb p))
        fun _ => 0))
  else
    none

/-- Byte `a` of an extraction result (0 past the end or on `none`). -/
def getByte (o : Option (List Nat)) (a : Nat) : Nat :=
  (o.getD []).getD a 0

/-- The `i32 → usize` cast `(x) as usize` of the rectangle arithmetic
(src/lib.rs:381): the value modulo `2 ^ 64`. -/
def usizeOfInt (i : Int) : Nat := (i % (2 ^ 64)).toNat

/-- What `capture_frame_t` reads off a successfully mapped surface: the raw
bytes, `mapped_surface.Pitch`, and the output descriptor's rotation tag and
`DesktopCoordinates` rectangle (src/lib.rs:362-382). -/
structure SurfaceData where
  mem : Nat → Nat
  pitch : Nat
  rotation : Nat
  left : Int
  top : Int
  right : Int
  bottom : Int

/-- `DXGIManager::capture_frame_t::<T>` (src/lib.rs:357) with
`s = mem::size_of::<T>()`: fetch a surface via `capture_frame_to_surface`,
propagating its `CaptureError`; then map it and run the rotation extraction.
`none` models the `unimplemented!()` panic on an unknown rotation tag; the
returned dimensions are the post-swap `(output_width, output_height)`. -/
def capture_frame_t {σ : Type} (s : Nat) (dup acq_result : Option σ)
    (frame : Except Nat SurfaceData) :
    Option (Except CaptureError (List Nat × Nat × Nat)) :=
  match (capture_frame_to_surface dup acq_result frame).result with
  | .error e => some (.error e)
  | .ok sd =>
      let stride := sd.pitch / 4
      let w0 := usizeOfInt (sd.right - sd.left)
      let h0 := usizeOfInt (sd.bottom - sd.top)
      match extract_rotation sd.rotation s w0 h0 stride sd.mem with
      | none => none
      | some buf =>
          some (.ok (buf, (swapDims sd.rotation (w0, h0)).1,
            (swapDims sd.rotation (w0, h0)).2))

/-- `DXGIManager::capture_frame_components` (src/lib.rs:505):
`capture_frame_t::<u8>`, i.e. element size 1; the buffer is the flat byte
sequence. -/
def capture_frame_components {σ : Type} (dup acq_result : Option σ)
    (frame : Except Nat SurfaceData) :
    Option (Except CaptureError (List Nat × Nat × Nat)) :=
  capture_frame_t 1 dup acq_result frame

/-- Reinterpret a byte sequence as consecutive 4-byte `BGRA8` pixels (the
`Vec<u8>` memory viewed as `Vec<BGRA8>`; a trailing fragment shorter than one
pixel is dropped). -/
def toPixels : List Nat → List BGRA8
  | b :: g :: r :: a :: rest => ⟨b, g, r, a⟩ :: toPixels rest
  | _ => []

/-- The bytes of a pixel sequence, in memory order. -/
def flattenPixels (l : List BGRA8) : List Nat :=
  l.flatMap fun p => [p.b, p.g, p.r, p.a]

/-- `DXGIManager::capture_frame` (src/lib.rs:497): `capture_frame_t::<BGRA8>`,
i.e. element size 4; the same buffer bytes viewed as `BGRA8` pixels. -/
def capture_frame {σ : Type} (dup acq_result : Option σ)
    (frame : Except Nat SurfaceData) :
    Option (Except CaptureError (List BGRA8 × Nat × Nat)) :=
  (capture_frame_t 4 dup acq_result frame).map fun e =>
    e.map fun x => (toPixels x.1, x.2)

/-! ### Helper lemmas about the write folds and the byte arithmetic -/

/-- A fold of stores leaves untouched any address none of them writes. -/
theorem writeFold_apply_of_forall_ne {β : Type} (key val : β → Nat) :
    ∀ (ps : List β) (f : Nat → Nat) (a : Nat),
      (∀ p ∈ ps, key p ≠ a) → writeFold ps key val f a = f a := by
  intro ps
  induction ps with
  | nil => intro f a _; rfl
  | cons p t ih =>
      intro f a h
      have hp : key p ≠ a := h p (List.mem_cons_self p t)
      have ht : ∀ q ∈ t, key q ≠ a := fun q hq => h q (List.mem_cons_of_mem p hq)
      show writeFold t key val (updFn f (key p) (val p)) a = f a
      rw [ih _ a ht]
      unfold updFn
      rw [if_neg (fun h' => hp h'.symm)]

/-- A fold of stores at pairwise-distinct addresses reads back each store's
value at its address. -/
theorem writeFold_apply_of_mem {β : Type} (key val : β → Nat) :
    ∀ (ps : List β) (f : Nat → Nat) (x : β),
      x ∈ ps → (∀ y ∈ ps, key y = key x → y = x) →
      writeFold ps key val f (key x) = val x := by
  intro ps
  induction ps with
  | nil => intro f x hx _; exact absurd hx (List.not_mem_nil x)
  | cons p t ih =>
      intro f x hx hu
      show writeFold t key val (updFn f (key p) (val p)) (key x) = val x
      by_cases hxt : x ∈ t
      · exact ih _ x hxt fun y hy he => hu y (List.mem_cons_of_mem p hy) he
      · have hxp : x = p := by
          rcases List.mem_cons.mp hx with h | h
          · exact h
          · exact absurd h hxt
        subst hxp
        have ht : ∀ q ∈ t, key q ≠ key x := by
          intro q hq he
          have hqx : q = x := hu q (List.mem_cons_of_mem x hq) he
          subst hqx
          exact hxt hq
        rw [writeFold_apply_of_forall_ne key val t _ (key x) ht]
        simp [updFn]

/-- Membership in a rotation branch's iteration space. -/
theorem mem_loopTriples {m n : Nat} {x : (Nat × Nat) × Nat} :
    x ∈ loopTriples m n ↔ x.1.1 < m ∧ x.1.2 < n ∧ x.2 < 4 := by
  obtain ⟨⟨i, k⟩, j⟩ := x
  simp only [loopTriples, List.mem_flatMap, List.mem_map, List.mem_range]
  constructor
  · rintro ⟨i', hi', k', hk', j', hj', he⟩
    obtain ⟨⟨rfl, rfl⟩, rfl⟩ := by
      simpa using he
    exact ⟨hi', hk', hj'⟩
  · rintro ⟨hi, hk, hj⟩
    exact ⟨i, hi, k, hk, j, hj, rfl⟩

/-- Uniqueness of the base-`w` decomposition `a + b * w` with `a < w`. -/
theorem nat_decomp_unique {w a b c d : Nat} (ha : a < w) (hc : c < w)
    (h : a + b * w = c + d * w) : a = c ∧ b = d := by
  have hw : 0 < w := Nat.lt_of_le_of_lt (Nat.zero_le a) ha
  have hmod : (a + b * w) % w = (c + d * w) % w := by rw [h]
  have ha' : a = c := by
    rwa [Nat.add_mul_mod_self_right, Nat.add_mul_mod_self_right,
      Nat.mod_eq_of_lt ha, Nat.mod_eq_of_lt hc] at hmod
  subst ha'
  have hb : b * w = d * w := by omega
  exact ⟨rfl, Nat.eq_of_mul_eq_mul_right hw hb⟩

/-- `byte_size`/`rowBytes` for `T = u8`: `1 * (x * 4 / 1) = 4 * x`. -/
theorem rowBytes_one (x : Nat) : rowBytes 1 x = 4 * x := by
  unfold rowBytes byte_size; omega

/-- `byte_size`/`rowBytes` for `T = BGRA8`: `4 * (x * 4 / 4) = 4 * x`. -/
theorem rowBytes_four (x : Nat) : rowBytes 4 x = 4 * x := by
  unfold rowBytes byte_size; omega

/-- Output length in bytes for `T = u8`. -/
theorem outLenBytes_one (n : Nat) : outLenBytes 1 n = 4 * n := by
  unfold outLenBytes byte_size; omega

/-- Output length in bytes for `T = BGRA8`. -/
theorem outLenBytes_four (n : Nat) : outLenBytes 4 n = 4 * n := by
  unfold outLenBytes byte_size; omega

/-- Reading an in-range index of `(List.range L).map f`. -/
theorem getD_range_map {L a : Nat} (f : Nat → Nat) (h : a < L) :
    ((List.range L).map f).getD a 0 = f a := by
  rw [List.getD_eq_getElem?_getD, List.getElem?_map, List.getElem?_range h]
  rfl

/-- The `IDENTITY`/`UNSPECIFIED` branch returns the whole mapped slice. -/
theorem extract_identity_eq (rot s w0 h0 stride : Nat) (mem : Nat → Nat)
    (h : rot ≤ 1) :
    extract_rotation rot s w0 h0 stride mem
      = some ((List.range (rowBytes s stride * h0)).map mem) := by
  have h2 : rot = 0 ∨ rot = 1 := by omega
  rcases h2 with rfl | rfl <;> rfl

/-- An unknown rotation tag produces no value (`unimplemented!()`). -/
theorem extract_none_of_gt (rot s w0 h0 stride : Nat) (mem : Nat → Nat)
    (h : 4 < rot) :
    extract_rotation rot s w0 h0 stride mem = none := by
  simp [extract_rotation, DXGI_MODE_ROTATION_UNSPECIFIED,
    DXGI_MODE_ROTATION_IDENTITY, DXGI_MODE_ROTATION_ROTATE90,
    DXGI_MODE_ROTATION_ROTATE180, DXGI_MODE_ROTATION_ROTATE270,
    show rot ≠ 0 by omega, show rot ≠ 1 by omega, show rot ≠ 2 by omega,
    show rot ≠ 3 by omega, show rot ≠ 4 by omega]

/-- Per-byte reading of the `ROTATE180` branch: destination pixel `(r, c)`
holds source pixel `(h0 - 1 - r, w0 - 1 - c)` of the pitch-`stride` mapped
buffer. -/
theorem extract180_getByte (w0 h0 stride : Nat) (mem : Nat → Nat) (r c j : Nat)
    (hr : r < h0) (hc : c < w0) (hj : j < 4) :
    getByte (extract_rotation DXGI_MODE_ROTATION_ROTATE180 4 w0 h0 stride mem)
        (4 * (r * w0 + c) + j)
      = mem ((h0 - 1 - r) * (4 * stride) + 4 * (w0 - 1 - c) + j) := by
  have hx : ((r, c), j) ∈ loopTriples h0 w0 := mem_loopTriples.mpr ⟨hr, hc, hj⟩
  have hext : extract_rotation DXGI_MODE_ROTATION_ROTATE180 4 w0 h0 stride mem
      = some ((List.range (outLenBytes 4 (w0 * h0))).map
          (writeFold (loopTriples h0 w0) (dst180 w0)
            (fun p => mem (src180 w0 h0 (rowBytes 4 stride) p)) fun _ => 0)) := rfl
  have hbound : 4 * (r * w0 + c) + j < outLenBytes 4 (w0 * h0) := by
    rw [outLenBytes_four]
    have h2 : (r + 1) * w0 ≤ h0 * w0 := Nat.mul_le_mul_right w0 (Nat.succ_le_of_lt hr)
    have h2' : r * w0 + w0 ≤ h0 * w0 := by rw [Nat.succ_mul] at h2; omega
    have h3 : w0 * h0 = h0 * w0 := Nat.mul_comm w0 h0
    omega
  have huniq : ∀ y ∈ loopTriples h0 w0,
      dst180 w0 y = dst180 w0 ((r, c), j) → y = ((r, c), j) := by
    rintro ⟨⟨i, l⟩, j'⟩ hy he
    obtain ⟨hi, hl, hj'⟩ := mem_loopTriples.mp hy
    simp only [dst180] at he
    have h4 : j' + (i * w0 + l) * 4 = j + (r * w0 + c) * 4 := by omega
    obtain ⟨hj2, hA⟩ := nat_decomp_unique hj' hj h4
    have h5 : l + i * w0 = c + r * w0 := by omega
    obtain ⟨hl2, hi2⟩ := nat_decomp_unique hl hc h5
    subst hj2; subst hl2; subst hi2; rfl
  rw [hext]
  simp only [getByte, Option.getD_some]
  rw [getD_range_map _ hbound]
  have hkey : 4 * (r * w0 + c) + j = dst180 w0 ((r, c), j) := rfl
  rw [hkey, writeFold_apply_of_mem (dst180 w0)
    (fun p => mem (src180 w0 h0 (rowBytes 4 stride) p))
    (loopTriples h0 w0) (fun _ => 0) ((r, c), j) hx huniq]
  simp [src180, rowBytes_four]

/-- Per-byte reading of the `ROTATE90` branch on square dimensions:
destination pixel `(r, c)` holds source pixel `(n - 1 - c, r)` — source rows
iterated in reverse, each scattered into destination columns from the near
end. -/
theorem extract90_getByte (n stride : Nat) (mem : Nat → Nat) (r c j : Nat)
    (hr : r < n) (hc : c < n) (hj : j < 4) :
    getByte (extract_rotation DXGI_MODE_ROTATION_ROTATE90 4 n n stride mem)
        (4 * (r * n + c) + j)
      = mem ((n - 1 - c) * (4 * stride) + 4 * r + j) := by
  have hx : ((c, r), j) ∈ loopTriples n n := mem_loopTriples.mpr ⟨hc, hr, hj⟩
  have hext : extract_rotation DXGI_MODE_ROTATION_ROTATE90 4 n n stride mem
      = some ((List.range (outLenBytes 4 (n * n))).map
          (writeFold (loopTriples n n) (dst90 n)
            (fun p => mem (src90 n (rowBytes 4 stride) p)) fun _ => 0)) := rfl
  have hbound : 4 * (r * n + c) + j < outLenBytes 4 (n * n) := by
    rw [outLenBytes_four]
    have h2 : (r + 1) * n ≤ n * n := Nat.mul_le_mul_right n (Nat.succ_le_of_lt hr)
    have h2' : r * n + n ≤ n * n := by rw [Nat.succ_mul] at h2; omega
    omega
  have huniq : ∀ y ∈ loopTriples n n,
      dst90 n y = dst90 n ((c, r), j) → y = ((c, r), j) := by
    rintro ⟨⟨i, k⟩, j'⟩ hy he
    obtain ⟨hi, hk, hj'⟩ := mem_loopTriples.mp hy
    simp only [dst90] at he
    have h4 : j' + (i + k * n) * 4 = j + (c + r * n) * 4 := by omega
    obtain ⟨hj2, hA⟩ := nat_decomp_unique hj' hj h4
    obtain ⟨hi2, hk2⟩ := nat_decomp_unique hi hc hA
    subst hj2; subst hi2; subst hk2; rfl
  rw [hext]
  simp only [getByte, Option.getD_some]
  have hkey : 4 * (r * n + c) + j = dst90 n ((c, r), j) := by
    simp only [dst90]; omega
  rw [hkey]
  rw [getD_range_map _ (hkey ▸ hbound)]
  rw [writeFold_apply_of_mem (dst90 n)
    (fun p => mem (src90 n (rowBytes 4 stride) p))
    (loopTriples n n) (fun _ => 0) ((c, r), j) hx huniq]
  simp [src90, rowBytes_four]

/-- Per-byte reading of the `ROTATE270` branch on square dimensions:
destination pixel `(r, c)` holds source pixel `(c, n - 1 - r)` — source rows
iterated forward, each scattered into destination columns from the near
end. -/
theorem extract270_getByte (n stride : Nat) (mem : Nat → Nat) (r c j : Nat)
    (hr : r < n) (hc : c < n) (hj : j < 4) :
    getByte (extract_rotation DXGI_MODE_ROTATION_ROTATE270 4 n n stride mem)
        (4 * (r * n + c) + j)
      = mem (c * (4 * stride) + 4 * (n - 1 - r) + j) := by
  have hx : ((c, r), j) ∈ loopTriples n n := mem_loopTriples.mpr ⟨hc, hr, hj⟩
  have hext : extract_rotation DXGI_MODE_ROTATION_ROTATE270 4 n n stride mem
      = some ((List.range (outLenBytes 4 (n * n))).map
          (writeFold (loopTriples n n) (dst90 n)
            (fun p => mem (src270 n (rowBytes 4 stride) p)) fun _ => 0)) := rfl
  have hbound : 4 * (r * n + c) + j < outLenBytes 4 (n * n) := by
    rw [outLenBytes_four]
    have h2 : (r + 1) * n ≤ n * n := Nat.mul_le_mul_right n (Nat.succ_le_of_lt hr)
    have h2' : r * n + n ≤ n * n := by rw [Nat.succ_mul] at h2; omega
    omega
  have huniq : ∀ y ∈ loopTriples n n,
      dst90 n y = dst90 n ((c, r), j) → y = ((c, r), j) := by
    rintro ⟨⟨i, k⟩, j'⟩ hy he
    obtain ⟨hi, hk, hj'⟩ := mem_loopTriples.mp hy
    simp only [dst90] at he
    have h4 : j' + (i + k * n) * 4 = j + (c + r * n) * 4 := by omega
    obtain ⟨hj2, hA⟩ := nat_decomp_unique hj' hj h4
    obtain ⟨hi2, hk2⟩ := nat_decomp_unique hi hc hA
    subst hj2; subst hi2; subst hk2; rfl
  rw [hext]
  simp only [getByte, Option.getD_some]
  have hkey : 4 * (r * n + c) + j = dst90 n ((c, r), j) := by
    simp only [dst90]; omega
  rw [hkey]
  rw [getD_range_map _ (hkey ▸ hbound)]
  rw [writeFold_apply_of_mem (dst90 n)
    (fun p => mem (src270 n (rowBytes 4 stride) p))
    (loopTriples n n) (fun _ => 0) ((c, r), j) hx huniq]
  simp [src270, rowBytes_four]

/-- With no session held, `capture_frame_to_surface` returns an error. -/
theorem capture_result_error_of_unacquired {σ Ω : Type} (acq_result : Option σ)
    (frame : Except Nat Ω) :
    ∃ e, (capture_frame_to_surface none acq_result frame).result
      = Except.error e := by
  cases acq_result <;> exact ⟨_, rfl⟩

/-- A failed `AcquireNextFrame` always surfaces as a `CaptureError`. -/
theorem capture_result_error_of_frame_error {σ Ω : Type} (s₀ : σ)
    (acq_result : Option σ) (hr : Nat) :
    ∃ e, (capture_frame_to_surface (Ω := Ω) (some s₀) acq_result
        (Except.error hr)).result = Except.error e := by
  cases acq_result <;>
    (simp only [capture_frame_to_surface]; split_ifs <;> exact ⟨_, rfl⟩)

/-- `capture_frame_t` propagates the surface step's error. -/
theorem capture_frame_t_eq_error {σ : Type} (s : Nat) (dup acq_result : Option σ)
    (frame : Except Nat SurfaceData) (e : CaptureError)
    (h : (capture_frame_to_surface dup acq_result frame).result = Except.error e) :
    capture_frame_t s dup acq_result frame = some (Except.error e) := by
  unfold capture_frame_t
  rw [h]

/-- Success characterization of `capture_frame_t` on a held session and a
mapped surface. -/
theorem capture_frame_t_ok_iff {σ : Type} (s : Nat) (s₀ : σ)
    (acq_result : Option σ) (sd : SurfaceData) (buf : List Nat) (ow oh : Nat) :
    capture_frame_t s (some s₀) acq_result (Except.ok sd)
        = some (Except.ok (buf, ow, oh)) ↔
      extract_rotation sd.rotation s (usizeOfInt (sd.right - sd.left))
          (usizeOfInt (sd.bottom - sd.top)) (sd.pitch / 4) sd.mem = some buf ∧
        (swapDims sd.rotation
          (usizeOfInt (sd.right - sd.left), usizeOfInt (sd.bottom - sd.top))).1 = ow ∧
        (swapDims sd.rotation
          (usizeOfInt (sd.right - sd.left), usizeOfInt (sd.bottom - sd.top))).2 = oh := by
  unfold capture_frame_t
  cases hE : extract_rotation sd.rotation s (usizeOfInt (sd.right - sd.left))
      (usizeOfInt (sd.bottom - sd.top)) (sd.pitch / 4) sd.mem with
  | none => simp [capture_frame_to_surface, hE]
  | some b =>
      simp only [capture_frame_to_surface, hE, Option.some.injEq, Except.ok.injEq,
        Prod.mk.injEq]

/-- Length of a successful extraction: the whole padded mapped slice for
`IDENTITY`/`UNSPECIFIED`, the reserved capacity for the rotation branches. -/
theorem extract_length (rot s w0 h0 stride : Nat) (mem : Nat → Nat)
    (buf : List Nat) (h : extract_rotation rot s w0 h0 stride mem = some buf) :
    buf.length
      = if rot ≤ 1 then rowBytes s stride * h0 else outLenBytes s (w0 * h0) := by
  unfold extract_rotation at h
  simp only [DXGI_MODE_ROTATION_UNSPECIFIED, DXGI_MODE_ROTATION_IDENTITY,
    DXGI_MODE_ROTATION_ROTATE90, DXGI_MODE_ROTATION_ROTATE180,
    DXGI_MODE_ROTATION_ROTATE270] at h
  split_ifs at h with h1 h2 h3 h4
  · have hsw : (swapDims rot (w0, h0)).2 = h0 := by
      rcases h1 with rfl | rfl <;> rfl
    simp only [Option.some.injEq] at h
    subst h
    rw [if_pos (by omega), List.length_map, List.length_range, hsw]
  · simp only [Option.some.injEq] at h
    subst h
    rw [if_neg (by omega)]
    simp
  · simp only [Option.some.injEq] at h
    subst h
    rw [if_neg (by omega)]
    simp
  · simp only [Option.some.injEq] at h
    subst h
    rw [if_neg (by omega)]
    simp

/-- The extraction does not depend on `T`'s element size for the two sizes the
source instantiates: `4 * (x * 4 / 4) = 1 * (x * 4 / 1)`. -/
theorem extract_rotation_four_eq_one (rot w0 h0 stride : Nat) (mem : Nat → Nat) :
    extract_rotation rot 4 w0 h0 stride mem
      = extract_rotation rot 1 w0 h0 stride mem := by
  unfold extract_rotation
  rw [show rowBytes 4 stride = rowBytes 1 stride by
      rw [rowBytes_four, rowBytes_one],
    show outLenBytes 4 (w0 * h0) = outLenBytes 1 (w0 * h0) by
      rw [outLenBytes_four, outLenBytes_one]]

/-- `capture_frame_t::<BGRA8>` and `capture_frame_t::<u8>` produce the same
bytes and dimensions. -/
theorem capture_frame_t_four_eq_one {σ : Type} (dup acq_result : Option σ)
    (frame : Except Nat SurfaceData) :
    capture_frame_t 4 dup acq_result frame
      = capture_frame_t 1 dup acq_result frame := by
  unfold capture_frame_t
  simp only [extract_rotation_four_eq_one]

/-- `flattenPixels` on a cons. -/
theorem flattenPixels_cons (p : BGRA8) (l : List BGRA8) :
    flattenPixels (p :: l) = p.b :: p.g :: p.r :: p.a :: flattenPixels l := rfl

/-- Grouping a byte list of length `4 * n` into pixels and flattening back is
the identity, and the pixel count is `n`. -/
theorem toPixels_spec : ∀ (n : Nat) (l : List Nat), l.length = 4 * n →
    flattenPixels (toPixels l) = l ∧ (toPixels l).length = n := by
  intro n
  induction n with
  | zero =>
      intro l hl
      have hnil : l = [] := List.eq_nil_of_length_eq_zero (by omega)
      subst hnil
      exact ⟨rfl, rfl⟩
  | succ m ih =>
      intro l hl
      match l with
      | [] => simp at hl
      | [b] => simp at hl; omega
      | [b, g] => simp at hl; omega
      | [b, g, r] => simp at hl; omega
      | b :: g :: r :: a :: rest =>
          have hrest : rest.length = 4 * m := by
            simp only [List.length_cons] at hl
            omega
          obtain ⟨h1, h2⟩ := ih rest hrest
          have htp : toPixels (b :: g :: r :: a :: rest)
              = ⟨b, g, r, a⟩ :: toPixels rest := rfl
          rw [htp]
          constructor
          · rw [flattenPixels_cons, h1]
          · simp [h2]

/-- Divisibility of a successful byte capture's length by the pixel size. -/
theorem capture_length_dvd {σ : Type} (dup acq_result : Option σ)
    (frame : Except Nat SurfaceData) (buf : List Nat) (ow oh : Nat)
    (h : capture_frame_t 1 dup acq_result frame = some (Except.ok (buf, ow, oh))) :
    4 ∣ buf.length := by
  cases dup with
  | none =>
      obtain ⟨e, he⟩ := capture_result_error_of_unacquired acq_result frame
      rw [capture_frame_t_eq_error 1 _ _ _ e he] at h
      simp at h
  | some s₀ =>
      cases frame with
      | error hr =>
          obtain ⟨e, he⟩ := capture_result_error_of_frame_error s₀ acq_result hr
          rw [capture_frame_t_eq_error 1 _ _ _ e he] at h
          simp at h
      | ok sd =>
          obtain ⟨hE, -, -⟩ := (capture_frame_t_ok_iff 1 s₀ acq_result sd buf ow oh).mp h
          have hlen := extract_length _ _ _ _ _ _ _ hE
          by_cases hrot : sd.rotation ≤ 1
          · rw [if_pos hrot, rowBytes_one] at hlen
            exact ⟨(sd.pitch / 4) * usizeOfInt (sd.bottom - sd.top), by rw [hlen]; ring⟩
          · rw [if_neg hrot, outLenBytes_one] at hlen
            exact ⟨usizeOfInt (sd.right - sd.left) * usizeOfInt (sd.bottom - sd.top),
              hlen⟩

/-! ### Claims C1, C7, C8 — the error-classification state machine -/

/-- C1 counterexample: with a held session, a frame request failing with
`DXGI_ERROR_ACCESS_LOST`, and a failing re-acquisition, the call returns
`RefreshFailure`, not `AccessLost` — refuting the claim that the result is
`AccessLost` regardless of the re-acquisition outcome and that the
`RefreshFailure` override applies only in the generic-failure branch. -/
theorem c1_accesslost_counterexample :
    (capture_frame_to_surface (σ := Unit) (Ω := Unit) (some ()) none
        (Except.error DXGI_ERROR_ACCESS_LOST)).result
      = Except.error CaptureError.RefreshFailure ∧
    Except.error CaptureError.RefreshFailure
      ≠ (Except.error CaptureError.AccessLost : Except CaptureError Unit) :=
  ⟨rfl, by simp⟩

/-- C1 (amended): on `DXGI_ERROR_ACCESS_LOST` the manager attempts
re-acquisition, and the call returns `AccessLost` when re-acquisition
succeeds but `RefreshFailure` when it fails — the same override as in the
generic-failure branch, only the success payload differing. -/
theorem c1_accesslost_reacquire (σ Ω : Type) (s₀ : σ) (acq_result : Option σ) :
    (capture_frame_to_surface (Ω := Ω) (some s₀) acq_result
        (Except.error DXGI_ERROR_ACCESS_LOST)).acquire_attempted = true ∧
    (capture_frame_to_surface (Ω := Ω) (some s₀) acq_result
        (Except.error DXGI_ERROR_ACCESS_LOST)).result
      = (match acq_result with
         | some _ => Except.error CaptureError.AccessLost
         | none => Except.error CaptureError.RefreshFailure) := by
  cases acq_result <;> exact ⟨rfl, rfl⟩

/-- C7 counterexample: the success-path failure message is capitalized
`"No valid duplicated output"`, not the claim's
`"no valid duplicated output"`. -/
theorem c7_message_counterexample :
    (capture_frame_to_surface (σ := Unit) (Ω := Unit) none (some ())
        (Except.ok ())).result
      = Except.error (CaptureError.Fail "No valid duplicated output") ∧
    CaptureError.Fail "No valid duplicated output"
      ≠ CaptureError.Fail "no valid duplicated output" :=
  ⟨rfl, by decide⟩

/-- C7 (amended): with no session held, the call attempts acquisition and
fails either way without requesting a frame: `Fail "No valid duplicated
output"` if acquisition succeeded, `RefreshFailure` if it failed. -/
theorem c7_unacquired_behavior (σ Ω : Type) (acq_result : Option σ)
    (frame : Except Nat Ω) :
    (capture_frame_to_surface none acq_result frame).result
      = (match acq_result with
         | some _ => Except.error (CaptureError.Fail "No valid duplicated output")
         | none => Except.error CaptureError.RefreshFailure) ∧
    (capture_frame_to_surface none acq_result frame).frame_requested = false ∧
    (capture_frame_to_surface none acq_result frame).acquire_attempted = true := by
  cases acq_result <;> exact ⟨rfl, rfl, rfl⟩

/-- C8: a call whose result is `Timeout` or `AccessDenied` leaves
`duplicated_output` exactly as it was and attempts no re-acquisition. -/
theorem c8_transient_preserves_session (σ Ω : Type) (dup acq_result : Option σ)
    (frame : Except Nat Ω)
    (h : (capture_frame_to_surface dup acq_result frame).result
          = Except.error CaptureError.Timeout ∨
        (capture_frame_to_surface dup acq_result frame).result
          = Except.error CaptureError.AccessDenied) :
    (capture_frame_to_surface dup acq_result frame).duplicated_output = dup ∧
      (capture_frame_to_surface dup acq_result frame).acquire_attempted = false := by
  cases dup with
  | none =>
      rcases h with h | h <;> cases acq_result <;>
        simp [capture_frame_to_surface] at h
  | some s₀ =>
      cases frame with
      | ok w => exact ⟨rfl, rfl⟩
      | error hr =>
          by_cases h1 : hr = DXGI_ERROR_ACCESS_LOST
          · rcases h with h | h <;> cases acq_result <;>
              simp [capture_frame_to_surface, h1] at h
          · by_cases h2 : hr = E_ACCESSDENIED
            · simp [capture_frame_to_surface, h1, h2, E_ACCESSDENIED,
                DXGI_ERROR_ACCESS_LOST]
            · by_cases h3 : hr = DXGI_ERROR_WAIT_TIMEOUT
              · simp [capture_frame_to_surface, h1, h2, h3,
                  DXGI_ERROR_WAIT_TIMEOUT, DXGI_ERROR_ACCESS_LOST, E_ACCESSDENIED]
              · rcases h with h | h <;> cases acq_result <;>
                  simp [capture_frame_to_surface, h1, h2, h3] at h

/-- C8 witness: a concrete `AccessDenied` call leaving the session alone. -/
theorem c8_transient_preserves_session_witness :
    (capture_frame_to_surface (σ := Unit) (Ω := Unit) (some ()) none
        (Except.error E_ACCESSDENIED)).duplicated_output = some () ∧
      (capture_frame_to_surface (σ := Unit) (Ω := Unit) (some ()) none
          (Except.error E_ACCESSDENIED)).acquire_attempted = false :=
  c8_transient_preserves_session Unit Unit (some ()) none
    (Except.error E_ACCESSDENIED) (Or.inr rfl)

/-! ### Claims C5, C6 — discovery and selection -/

/-- C5: output discovery is a prefix scan — it returns exactly the longest
prefix of the enumeration whose members are attached to the desktop, so an
[attached, detached, attached] enumeration yields only the first output. -/
theorem c5_output_discovery_prefix_scan :
    (∀ outs : List MockOutput,
        get_adapter_outputs outs
          = outs.takeWhile (fun o => o.attachedToDesktop != 0)) ∧
      ∀ x y z : MockOutput, x.attachedToDesktop ≠ 0 → y.attachedToDesktop = 0 →
        get_adapter_outputs [x, y, z] = [x] := by
  have key : ∀ outs : List MockOutput,
      get_adapter_outputs outs
        = outs.takeWhile (fun o => o.attachedToDesktop != 0) := by
    intro outs
    induction outs with
    | nil => rfl
    | cons o rest ih =>
        by_cases ho : o.attachedToDesktop = 0
        · simp [get_adapter_outputs, List.takeWhile_cons, ho]
        · simp [get_adapter_outputs, List.takeWhile_cons, ho, ih]
  refine ⟨key, fun x y z hx hy => ?_⟩
  rw [key]
  simp [List.takeWhile_cons, hx, hy]

/-- C5 witness: the [attached, detached, attached] mock enumeration. -/
theorem c5_output_discovery_prefix_scan_witness :
    get_adapter_outputs [⟨1⟩, ⟨0⟩, ⟨1⟩] = [⟨1⟩] :=
  c5_output_discovery_prefix_scan.2 ⟨1⟩ ⟨0⟩ ⟨1⟩ (by decide) rfl

/-- `find?` over primary outputs agrees with the spec's first-primary scan. -/
theorem find?_eq_firstPrimary {δ : Type} :
    ∀ l : List (δ × MockOutput1),
      l.find? (fun p => output_is_primary p.2) = firstPrimary l := by
  intro l
  induction l with
  | nil => rfl
  | cons p rest ih =>
      cases hp : output_is_primary p.2 <;>
        simp [List.find?_cons, hp, firstPrimary, ih]

/-- `filter` + `nth (k - 1)` agrees with the spec's k-th non-primary scan. -/
theorem filter_nth_eq_nthNonPrimary {δ : Type} :
    ∀ (l : List (δ × MockOutput1)) (k : Nat), k ≠ 0 →
      (l.filter (fun p => !output_is_primary p.2))[k - 1]? = nthNonPrimary l k := by
  intro l
  induction l with
  | nil => intro k hk; simp [nthNonPrimary]
  | cons p rest ih =>
      intro k hk
      cases hp : output_is_primary p.2
      · rw [List.filter_cons_of_pos (by simp [hp])]
        by_cases hk1 : k = 1
        · subst hk1
          simp [nthNonPrimary, hp]
        · have hk2 : k - 1 = (k - 1 - 1) + 1 := by omega
          rw [hk2, List.getElem?_cons_succ]
          have hih := ih (k - 1) (by omega)
          rw [hih]
          simp [nthNonPrimary, hp, hk1]
      · rw [List.filter_cons_of_neg (by simp [hp])]
        rw [ih k hk]
        simp [nthNonPrimary, hp]

/-- C6: the source's `get_capture_source` coincides with the spec's
`select_target`: index 0 picks the first primary pair, index `k > 0` picks
the k-th (1-based) non-primary pair in order, and `none` otherwise. -/
theorem c6_capture_source_selection (δ : Type) (l : List (δ × MockOutput1))
    (k : Nat) : get_capture_source l k = select_target l k := by
  unfold get_capture_source select_target
  by_cases hk : k = 0
  · simp [hk, find?_eq_firstPrimary]
  · simp only [if_neg hk]
    exact filter_nth_eq_nthNonPrimary l k hk

/-! ### Claim C10 — unknown rotation tags panic -/

/-- C10: a successfully mapped frame whose output descriptor carries a
rotation value outside the five known tags makes `capture_frame_t` hit
`unimplemented!()` (no value at all) instead of returning a `CaptureError`. -/
theorem c10_unknown_rotation_panics (σ : Type) (s_sz : Nat) (s₀ : σ)
    (acq_result : Option σ) (sd : SurfaceData) (h : 4 < sd.rotation) :
    capture_frame_t s_sz (some s₀) acq_result (Except.ok sd) = none := by
  unfold capture_frame_t
  simp only [capture_frame_to_surface]
  rw [extract_none_of_gt _ _ _ _ _ _ h]

/-- C10 witness: rotation tag 5 produces no value. -/
theorem c10_unknown_rotation_panics_witness :
    capture_frame_t 4 (some ()) none
        (Except.ok ⟨fun _ => 0, 0, 5, 0, 0, 0, 0⟩) = none :=
  c10_unknown_rotation_panics Unit 4 () none ⟨fun _ => 0, 0, 5, 0, 0, 0, 0⟩
    (by decide)

/-! ### Claim C2 — dimensions vs. buffer length -/

/-- C2 counterexample: a successful identity-rotation capture of a 1x1
output with pitch 8 (padding beyond `width * 4 = 4`) returns an 8-byte
buffer, so `width * height * 4 = 4 ≠ 8` — the identity branch copies whole
pitch-sized rows, padding included. -/
theorem c2_counterexample :
    capture_frame_components (σ := Unit) (some ()) none
        (Except.ok ⟨fun i => i, 8, 1, 0, 0, 1, 1⟩)
      = some (Except.ok ((List.range 8).map (fun i => i), 1, 1)) ∧
    1 * 1 * 4 ≠ ((List.range 8).map (fun i : Nat => i)).length := by
  constructor
  · rfl
  · simp

/-- C2 (amended): for a successful capture with rotation 90/180/270 the
returned dimensions satisfy `ow * oh * 4 = buffer byte length`; for
`IDENTITY`/`UNSPECIFIED` the buffer is the whole mapped slice of
`4 * (pitch / 4) * height` bytes, which equals `width * height * 4` only
when the pitch is exactly `width * 4`. -/
theorem c2_dims_length (σ : Type) (s₀ : σ) (acq_result : Option σ)
    (sd : SurfaceData) (s_sz : Nat) (buf : List Nat) (ow oh : Nat)
    (hs : s_sz = 1 ∨ s_sz = 4)
    (h : capture_frame_t s_sz (some s₀) acq_result (Except.ok sd)
      = some (Except.ok (buf, ow, oh))) :
    (2 ≤ sd.rotation → ow * oh * 4 = buf.length) ∧
      (sd.rotation ≤ 1 → buf.length = 4 * (sd.pitch / 4) * oh) := by
  obtain ⟨hE, how, hoh⟩ := (capture_frame_t_ok_iff _ _ _ _ _ _ _).mp h
  have hlen := extract_length _ _ _ _ _ _ _ hE
  have hle : sd.rotation ≤ 4 := by
    by_contra hgt
    rw [extract_none_of_gt _ _ _ _ _ _ (by omega)] at hE
    exact absurd hE (by simp)
  constructor
  · intro h2
    rw [if_neg (by omega)] at hlen
    have houtlen : buf.length
        = 4 * (usizeOfInt (sd.right - sd.left) * usizeOfInt (sd.bottom - sd.top)) := by
      rcases hs with rfl | rfl
      · rw [hlen, outLenBytes_one]
      · rw [hlen, outLenBytes_four]
    have h234 : sd.rotation = 2 ∨ sd.rotation = 3 ∨ sd.rotation = 4 := by omega
    rcases h234 with hrot | hrot | hrot
    all_goals
      rw [hrot] at how hoh
      simp only [swapDims, DXGI_MODE_ROTATION_ROTATE90,
        DXGI_MODE_ROTATION_ROTATE270] at how hoh
      norm_num at how hoh
      subst how
      subst hoh
      rw [houtlen]
      ring
  · intro hle1
    rw [if_pos hle1] at hlen
    have hohh : oh = usizeOfInt (sd.bottom - sd.top) := by
      have h01 : sd.rotation = 0 ∨ sd.rotation = 1 := by omega
      rcases h01 with hrot | hrot <;> rw [hrot] at hoh <;>
        simpa [swapDims, DXGI_MODE_ROTATION_ROTATE90,
          DXGI_MODE_ROTATION_ROTATE270] using hoh.symm
    rcases hs with rfl | rfl
    · rw [hlen, rowBytes_one, hohh]
    · rw [hlen, rowBytes_four, hohh]

/-- C2 witness: a concrete successful 180-degree 1x1 capture satisfying the
amended dimensional accounting. -/
theorem c2_dims_length_witness :
    (2 ≤ (3 : Nat) → 1 * 1 * 4 = ([0, 0, 0, 0] : List Nat).length) ∧
      ((3 : Nat) ≤ 1 → ([0, 0, 0, 0] : List Nat).length = 4 * (4 / 4) * 1) :=
  c2_dims_length Unit () none ⟨fun _ => 0, 4, 3, 0, 0, 1, 1⟩ 1 [0, 0, 0, 0] 1 1
    (Or.inl rfl) rfl

/-! ### Claim C3 — the per-branch addressing formulas -/

/-- C3 counterexample: at 2x2 with pitch 8 and the identity byte marking,
the `Rotate90` output does not follow the claim's formula
`dest (r, c) ← source row c, column (height - 1 - r)`: output pixel (0,0)
holds source byte 8 (source row 1, column 0), not source byte 4. -/
theorem c3_rotation_addressing_counterexample :
    ¬ ∀ r : Nat, r < 2 → ∀ c : Nat, c < 2 → ∀ j : Nat, j < 4 →
        getByte (extract_rotation DXGI_MODE_ROTATION_ROTATE90 4 2 2 2 (fun i => i))
            (4 * (r * 2 + c) + j)
          = (fun i : Nat => i) (c * (4 * 2) + 4 * (2 - 1 - r) + j) := by
  decide

/-- C3 (amended): per-pixel addressing of the extraction step.  Identity /
Unspecified copy the mapped slice verbatim; `Rotate180` maps destination
`(r, c)` to source `(h0 - 1 - r, w0 - 1 - c)` as claimed; on square
dimensions `Rotate90` maps destination `(r, c)` to source row `(h0 - 1 - c)`,
column `r` (source rows iterated in reverse, destination columns filled from
the near end), and `Rotate270` maps it to source row `c`, column
`(h0 - 1 - r)` (source rows forward, destination columns from the near end) —
the claim's `Rotate90` and `Rotate270` formulas are exchanged. -/
theorem c3_rotation_addressing (w0 h0 stride : Nat) (mem : Nat → Nat)
    (r c j : Nat) (hr : r < h0) (hc : c < w0) (hj : j < 4) :
    (getByte (extract_rotation DXGI_MODE_ROTATION_ROTATE180 4 w0 h0 stride mem)
        (4 * (r * w0 + c) + j)
      = mem ((h0 - 1 - r) * (4 * stride) + 4 * (w0 - 1 - c) + j)) ∧
    (∀ rot ≤ 1, extract_rotation rot 4 w0 h0 stride mem
      = some ((List.range (4 * stride * h0)).map mem)) ∧
    (w0 = h0 →
      getByte (extract_rotation DXGI_MODE_ROTATION_ROTATE90 4 h0 h0 stride mem)
          (4 * (r * h0 + c) + j)
        = mem ((h0 - 1 - c) * (4 * stride) + 4 * r + j)) ∧
    (w0 = h0 →
      getByte (extract_rotation DXGI_MODE_ROTATION_ROTATE270 4 h0 h0 stride mem)
          (4 * (r * h0 + c) + j)
        = mem (c * (4 * stride) + 4 * (h0 - 1 - r) + j)) := by
  refine ⟨extract180_getByte w0 h0 stride mem r c j hr hc hj, ?_, ?_, ?_⟩
  · intro rot hrot
    rw [extract_identity_eq _ _ _ _ _ _ hrot, rowBytes_four]
  · intro hwh
    exact extract90_getByte h0 stride mem r c j hr (hwh ▸ hc) hj
  · intro hwh
    exact extract270_getByte h0 stride mem r c j hr (hwh ▸ hc) hj

/-- C3 witness: the 180-degree formula evaluated at a 1x1 surface. -/
theorem c3_rotation_addressing_witness :
    getByte (extract_rotation DXGI_MODE_ROTATION_ROTATE180 4 1 1 1 (fun i => i))
        (4 * (0 * 1 + 0) + 0)
      = (fun i : Nat => i) ((1 - 1 - 0) * (4 * 1) + 4 * (1 - 1 - 0) + 0) :=
  (c3_rotation_addressing 1 1 1 (fun i => i) 0 0 0 (by decide) (by decide)
    (by decide)).1

/-! ### Claim C4 — algebra of the rotation extractions -/

/-- C4: the identity tag copies the buffer verbatim; `Rotate180` composed
with itself restores every source pixel; and on square dimensions the
`Rotate90` and `Rotate270` extractions are mutual inverses. -/
theorem c4_rotation_algebra (w0 h0 n stride : Nat) (mem : Nat → Nat) :
    (∀ rot ≤ 1, extract_rotation rot 4 w0 h0 stride mem
      = some ((List.range (4 * stride * h0)).map mem)) ∧
    (∀ r c j : Nat, r < h0 → c < w0 → j < 4 →
      getByte (extract_rotation DXGI_MODE_ROTATION_ROTATE180 4 w0 h0 w0
          (getByte (extract_rotation DXGI_MODE_ROTATION_ROTATE180 4 w0 h0 stride mem)))
          (4 * (r * w0 + c) + j)
        = mem (r * (4 * stride) + 4 * c + j)) ∧
    (∀ r c j : Nat, r < n → c < n → j < 4 →
      getByte (extract_rotation DXGI_MODE_ROTATION_ROTATE270 4 n n n
          (getByte (extract_rotation DXGI_MODE_ROTATION_ROTATE90 4 n n stride mem)))
          (4 * (r * n + c) + j)
        = mem (r * (4 * stride) + 4 * c + j)) ∧
    (∀ r c j : Nat, r < n → c < n → j < 4 →
      getByte (extract_rotation DXGI_MODE_ROTATION_ROTATE90 4 n n n
          (getByte (extract_rotation DXGI_MODE_ROTATION_ROTATE270 4 n n stride mem)))
          (4 * (r * n + c) + j)
        = mem (r * (4 * stride) + 4 * c + j)) := by
  refine ⟨?_, ?_, ?_, ?_⟩
  · intro rot hrot
    rw [extract_identity_eq _ _ _ _ _ _ hrot, rowBytes_four]
  · intro r c j hr hc hj
    rw [extract180_getByte w0 h0 w0 _ r c j hr hc hj]
    have hidx : (h0 - 1 - r) * (4 * w0) + 4 * (w0 - 1 - c) + j
        = 4 * ((h0 - 1 - r) * w0 + (w0 - 1 - c)) + j := by ring
    rw [hidx,
      extract180_getByte w0 h0 stride mem (h0 - 1 - r) (w0 - 1 - c) j
        (by omega) (by omega) hj]
    have e1 : h0 - 1 - (h0 - 1 - r) = r := by omega
    have e2 : w0 - 1 - (w0 - 1 - c) = c := by omega
    rw [e1, e2]
  · intro r c j hr hc hj
    rw [extract270_getByte n n _ r c j hr hc hj]
    have hidx : c * (4 * n) + 4 * (n - 1 - r) + j
        = 4 * (c * n + (n - 1 - r)) + j := by ring
    rw [hidx,
      extract90_getByte n stride mem c (n - 1 - r) j hc (by omega) hj]
    have e1 : n - 1 - (n - 1 - r) = r := by omega
    rw [e1]
  · intro r c j hr hc hj
    rw [extract90_getByte n n _ r c j hr hc hj]
    have hidx : (n - 1 - c) * (4 * n) + 4 * r + j
        = 4 * ((n - 1 - c) * n + r) + j := by ring
    rw [hidx,
      extract270_getByte n stride mem (n - 1 - c) r j (by omega) hr hj]
    have e1 : n - 1 - (n - 1 - c) = c := by omega
    rw [e1]

/-- C4 witness: the 180-degree involution evaluated at a 1x1 surface. -/
theorem c4_rotation_algebra_witness :
    getByte (extract_rotation DXGI_MODE_ROTATION_ROTATE180 4 1 1 1
        (getByte (extract_rotation DXGI_MODE_ROTATION_ROTATE180 4 1 1 1 (fun i => i))))
        (4 * (0 * 1 + 0) + 0)
      = (fun i : Nat => i) (0 * (4 * 1) + 4 * 0 + 0) :=
  (c4_rotation_algebra 1 1 1 1 (fun i => i)).2.1 0 0 0 (by decide) (by decide)
    (by decide)

/-! ### Claim C9 — pixels vs. component bytes -/

/-- C9: a successful `capture_frame_components` call determines the
`capture_frame` result on the same inputs: identical dimensions, the pixel
sequence is the byte sequence grouped in fours, `4 * pixel count = byte
count`, and flattening the pixels byte-for-byte recovers the byte sequence. -/
theorem c9_pixels_vs_bytes (σ : Type) (dup acq_result : Option σ)
    (frame : Except Nat SurfaceData) (bytes : List Nat) (w h : Nat)
    (hcomp : capture_frame_components dup acq_result frame
      = some (Except.ok (bytes, w, h))) :
    capture_frame dup acq_result frame
        = some (Except.ok (toPixels bytes, w, h)) ∧
      4 * (toPixels bytes).length = bytes.length ∧
      flattenPixels (toPixels bytes) = bytes := by
  have h1 : capture_frame_t 1 dup acq_result frame
      = some (Except.ok (bytes, w, h)) := hcomp
  obtain ⟨m, hm⟩ := capture_length_dvd dup acq_result frame bytes w h h1
  obtain ⟨hflat, hlen⟩ := toPixels_spec m bytes hm
  refine ⟨?_, ?_, hflat⟩
  · unfold capture_frame
    rw [capture_frame_t_four_eq_one, h1]
    rfl
  · rw [hlen, hm]

/-- C9 witness: the concrete 180-degree 1x1 capture in both encodings. -/
theorem c9_pixels_vs_bytes_witness :
    capture_frame (σ := Unit) (some ()) none
        (Except.ok ⟨fun _ => 0, 4, 3, 0, 0, 1, 1⟩)
        = some (Except.ok (toPixels [0, 0, 0, 0], 1, 1)) ∧
      4 * (toPixels [0, 0, 0, 0]).length = ([0, 0, 0, 0] : List Nat).length ∧
      flattenPixels (toPixels [0, 0, 0, 0]) = [0, 0, 0, 0] :=
  c9_pixels_vs_bytes Unit (some ()) none (Except.ok ⟨fun _ => 0, 4, 3, 0, 0, 1, 1⟩)
    [0, 0, 0, 0] 1 1 rfl
